import Mathlib

/-
Verification development for the grocery price comparator's reconciliation core
(src/utils.py).  The Python source is shallowly embedded here: strings are
modelled as List Char (with String wrappers keeping the source names), Python
floats as ℚ (all arithmetic performed by the modelled code paths is exact on
the decimal literals involved), regular expressions as an explicit
backtracking matcher that mirrors Python's re semantics (leftmost search,
alternation tried in written order, greedy/lazy quantifiers, word boundaries,
lookarounds), and dicts as insertion-ordered association lists, matching
CPython's dict iteration order.
-/

/-- Python's regex and str whitespace class restricted to ASCII, which is the
only alphabet the scraped listings use: space, tab, newline, carriage return,
vertical tab, form feed. -/
def pyIsSpace (c : Char) : Bool :=
  c == ' ' || c == '\t' || c == '\n' || c == '\r' || c == '\x0b' || c == '\x0c'

/-- Model of str.lower(), character by character (ASCII). -/
def lowerL (l : List Char) : List Char := l.map Char.toLower

/-- Model of str.strip() with no arguments: drop whitespace on both ends. -/
def pyStrip (l : List Char) : List Char :=
  ((l.dropWhile pyIsSpace).reverse.dropWhile pyIsSpace).reverse

/-- Worker for pySplitWs, accumulating the current word in reverse. -/
def pySplitWsAux : List Char → List Char → List (List Char)
  | [], acc => if acc.isEmpty then [] else [acc.reverse]
  | c :: rest, acc =>
    if pyIsSpace c then
      if acc.isEmpty then pySplitWsAux rest [] else acc.reverse :: pySplitWsAux rest []
    else pySplitWsAux rest (c :: acc)

/-- Model of str.split() with no arguments: split on whitespace runs,
dropping empty pieces. -/
def pySplitWs (l : List Char) : List (List Char) := pySplitWsAux l []

/-- Join a list of words with single spaces; composed with pySplitWs this is
the source's ' '.join(s.split()) whitespace collapsing idiom. -/
def joinSpace : List (List Char) → List Char
  | [] => []
  | [w] => w
  | w :: ws => w ++ ' ' :: joinSpace ws

/-- Model of the Python substring test (the in operator on str). -/
def substrOf (pat : List Char) : List Char → Bool
  | [] => pat.isEmpty
  | c :: rest => pat.isPrefixOf (c :: rest) || substrOf pat rest

/-- Worker for pyFind carrying the current index. -/
def pyFindAux (pat : List Char) : List Char → Int → Int
  | [], i => if pat.isEmpty then i else -1
  | c :: rest, i => if pat.isPrefixOf (c :: rest) then i else pyFindAux pat rest (i + 1)

/-- Model of str.find: index of the first substring occurrence, -1 if absent. -/
def pyFind (pat l : List Char) : Int := pyFindAux pat l 0

/-- Numeric value of a digit character. -/
def digitVal (c : Char) : Nat := c.toNat - '0'.toNat

/-- Natural number denoted by a digit string (most significant first). -/
def digitsToNat (l : List Char) : Nat := l.foldl (fun n c => 10 * n + digitVal c) 0

/- Exact rational arithmetic through the smart constructor mkRat, which the
kernel evaluates on literals.  The bundled operations on ℚ are marked
irreducible upstream, so the embedding computes with the q-operations below
and the bridge lemmas identify them with the usual ones for reasoning. -/

/-- Addition on ℚ in evaluable form. -/
def qadd (a b : ℚ) : ℚ := mkRat (a.num * b.den + b.num * a.den) (a.den * b.den)

/-- Subtraction on ℚ in evaluable form. -/
def qsub (a b : ℚ) : ℚ := mkRat (a.num * b.den - b.num * a.den) (a.den * b.den)

/-- Multiplication on ℚ in evaluable form. -/
def qmul (a b : ℚ) : ℚ := mkRat (a.num * b.num) (a.den * b.den)

/-- Inverse on ℚ in evaluable form (0 for 0, as in Mathlib). -/
def qinv (a : ℚ) : ℚ := Rat.divInt a.den a.num

/-- Division on ℚ in evaluable form. -/
def qdiv (a b : ℚ) : ℚ := qmul a (qinv b)

/-- Minimum on ℚ in evaluable form. -/
def qmin (a b : ℚ) : ℚ := if a ≤ b then a else b

/-- Maximum on ℚ in evaluable form. -/
def qmax (a b : ℚ) : ℚ := if a ≤ b then b else a

theorem qadd_eq (a b : ℚ) : qadd a b = a + b := (Rat.add_def' a b).symm

theorem qsub_eq (a b : ℚ) : qsub a b = a - b := (Rat.sub_def' a b).symm

theorem qmul_eq (a b : ℚ) : qmul a b = a * b := by
  rw [qmul, Rat.mkRat_eq_div, Rat.mul_eq_mkRat, Rat.mkRat_eq_div]

theorem qinv_eq (a : ℚ) : qinv a = a⁻¹ := (Rat.inv_def' a).symm

theorem qdiv_eq (a b : ℚ) : qdiv a b = a / b := by
  rw [qdiv, qmul_eq, qinv_eq, div_eq_mul_inv]

theorem qmin_eq (a b : ℚ) : qmin a b = min a b := by rw [qmin, min_def]

theorem qmax_eq (a b : ℚ) : qmax a b = max a b := by rw [qmax, max_def]

/-- Model of Python float() restricted to the shapes the source can feed it:
optional surrounding whitespace around digits with at most one decimal point.
Any other input raised ValueError in Python and is none here (the source
catches the exception and continues).  The value int.frac is the exact
rational (int * 10 ^ |frac| + frac) / 10 ^ |frac|. -/
def pyFloatQ (l : List Char) : Option ℚ :=
  let s := pyStrip l
  let intPart := s.takeWhile Char.isDigit
  let rest := s.drop intPart.length
  match rest with
  | [] => if intPart.isEmpty then none else some (digitsToNat intPart : ℚ)
  | '.' :: frac =>
    if frac.all Char.isDigit && !(intPart.isEmpty && frac.isEmpty) then
      some (mkRat (digitsToNat intPart * 10 ^ frac.length + digitsToNat frac) (10 ^ frac.length))
    else none
  | _ => none

/-- Model of str.split(sep) for a single-character separator (used by the
source as quantity_str.split('-')). -/
def pySplitOnChar (sep : Char) : List Char → List (List Char)
  | [] => [[]]
  | c :: rest =>
    if c == sep then [] :: pySplitOnChar sep rest
    else match pySplitOnChar sep rest with
      | [] => [[c]]
      | w :: ws => (c :: w) :: ws

/- ----------------------------------------------------------------------
Backtracking regex matcher mirroring Python's re module semantics for the
constructs the source uses: literals, classes, concatenation, alternation
(tried in written order), greedy and lazy star, optional, capturing groups,
negative lookahead, fixed-width negative lookbehind, and word boundaries.
---------------------------------------------------------------------- -/

/-- Captured groups: group index paired with the captured characters.  The
most recent capture of a group is the first entry with its index. -/
abbrev Caps := List (Nat × List Char)

/-- Group lookup, mirroring match.group(n). -/
def getGrp (caps : Caps) (n : Nat) : Option (List Char) :=
  (caps.find? (fun p => p.1 == n)).map (fun p => p.2)

/-- Regex abstract syntax for the patterns occurring in the source. -/
inductive RE : Type where
  | eps : RE
  | chr : Char → RE
  | cls : (Char → Bool) → RE
  | seq : RE → RE → RE
  | alt : RE → RE → RE
  | star : Bool → RE → RE
  | opt : Bool → RE → RE
  | grp : Nat → RE → RE
  | nla : RE → RE
  | nlb : (List Char → Bool) → RE
  | wb : RE

/-- Matcher state: characters to the left of the cursor in reverse order
(needed for lookbehind and word boundaries), and the characters remaining. -/
abbrev RState := List Char × List Char

/-- Python re word-character class for ASCII input. -/
def isWordChar (c : Char) : Bool := c.isAlphanum || c == '_'

/-- Word-boundary test at the cursor, treating string ends as non-word. -/
def atWb : RState → Bool
  | (l, r) =>
    (match l with | [] => false | c :: _ => isWordChar c) !=
    (match r with | [] => false | c :: _ => isWordChar c)

/-- Backtracking matcher in continuation-passing style.  Alternation and the
quantifiers realise Python's preference order: the first alternative that
lets the continuation succeed wins, greedy quantifiers try the longer match
first, lazy ones the shorter.  The fuel bounds recursion depth; it is chosen
large enough for the inputs at hand (every star body consumes a character,
so depth is linear in the input). -/
def reM : Nat → RE → RState → Caps → (RState → Caps → Option Caps) → Option Caps
  | 0, _, _, _, _ => none
  | _ + 1, .eps, st, caps, k => k st caps
  | _ + 1, .chr c, (l, r), caps, k =>
    match r with
    | [] => none
    | x :: rest => if x == c then k (x :: l, rest) caps else none
  | _ + 1, .cls p, (l, r), caps, k =>
    match r with
    | [] => none
    | x :: rest => if p x then k (x :: l, rest) caps else none
  | fuel + 1, .seq a b, st, caps, k =>
    reM fuel a st caps (fun st2 caps2 => reM fuel b st2 caps2 k)
  | fuel + 1, .alt a b, st, caps, k =>
    match reM fuel a st caps k with
    | some res => some res
    | none => reM fuel b st caps k
  | fuel + 1, .star g r, st, caps, k =>
    if g then
      match reM fuel r st caps (fun st2 caps2 => reM fuel (.star g r) st2 caps2 k) with
      | some res => some res
      | none => k st caps
    else
      match k st caps with
      | some res => some res
      | none => reM fuel r st caps (fun st2 caps2 => reM fuel (.star g r) st2 caps2 k)
  | fuel + 1, .opt g r, st, caps, k =>
    if g then
      match reM fuel r st caps k with
      | some res => some res
      | none => k st caps
    else
      match k st caps with
      | some res => some res
      | none => reM fuel r st caps k
  | fuel + 1, .grp n r, (l, ri), caps, k =>
    reM fuel r (l, ri) caps (fun st2 caps2 =>
      k st2 ((n, (st2.1.take (st2.1.length - l.length)).reverse) :: caps2))
  | fuel + 1, .nla r, st, caps, k =>
    match reM fuel r st caps (fun _ caps2 => some caps2) with
    | some _ => none
    | none => k st caps
  | _ + 1, .nlb p, st, caps, k => if p st.1 then none else k st caps
  | _ + 1, .wb, st, caps, k => if atWb st then k st caps else none

/-- Fuel bound for a match attempt on a given remainder. -/
def fuelFor (r : List Char) : Nat := 400 + 8 * r.length

/-- Attempt an anchored match at the cursor; the whole pattern is wrapped in
group 0 so the caps record the matched span, as in Python's match.group(0). -/
def reMatchHere (re : RE) (l r : List Char) : Option Caps :=
  reM (fuelFor r) (.grp 0 re) (l, r) [] (fun _ caps => some caps)

/-- Worker for reSearch: try each start position from left to right. -/
def reSearchAux (re : RE) : Nat → List Char → List Char → Option Caps
  | fuel, l, r =>
    match reMatchHere re l r with
    | some caps => some caps
    | none =>
      match fuel, r with
      | _, [] => none
      | 0, _ => none
      | f + 1, c :: rest => reSearchAux re f (c :: l) rest

/-- Model of re.search: leftmost match anywhere in the string. -/
def reSearch (re : RE) (s : List Char) : Option Caps := reSearchAux re s.length [] s

/-- Boolean form of re.search used where the source only tests a match. -/
def reTest (re : RE) (s : List Char) : Bool := (reSearch re s).isSome

/-- Worker for reSub: scan the original string left to right replacing
non-overlapping matches, as re.sub does.  A zero-width match (impossible for
the patterns used here, all of which consume at least one character) emits
the replacement and advances one character. -/
def reSubAux (re : RE) (repl : List Char) : Nat → List Char → List Char → List Char
  | 0, _, r => r
  | fuel + 1, l, r =>
    match reMatchHere re l r with
    | some caps =>
      let m := (getGrp caps 0).getD []
      if m.isEmpty then
        match r with
        | [] => repl
        | c :: rest => repl ++ c :: reSubAux re repl fuel (c :: l) rest
      else repl ++ reSubAux re repl fuel (m.reverse ++ l) (r.drop m.length)
    | none =>
      match r with
      | [] => []
      | c :: rest => c :: reSubAux re repl fuel (c :: l) rest

/-- Model of re.sub(pattern, repl, s) for the patterns the source uses. -/
def reSubAll (re : RE) (repl : List Char) (s : List Char) : List Char :=
  reSubAux re repl (s.length + 1) [] s

/-- Concatenation of a pattern list. -/
def rcat : List RE → RE
  | [] => .eps
  | [r] => r
  | r :: rs => .seq r (rcat rs)

/-- Alternation of a pattern list, tried in order as Python does. -/
def ralts : List RE → RE
  | [] => .cls (fun _ => false)
  | [r] => r
  | r :: rs => .alt r (ralts rs)

/-- Literal string pattern. -/
def rstr (s : String) : RE := rcat (s.data.map RE.chr)

/-- Digit class, Python \d on ASCII. -/
def rdigit : RE := .cls Char.isDigit

/-- Whitespace class, Python \s on ASCII. -/
def rsp : RE := .cls pyIsSpace

/-- Dot: any character except newline. -/
def rdot : RE := .cls (fun c => c != '\n')

/-- One-or-more quantifier. -/
def rplus (r : RE) : RE := .seq r (.star true r)

/-- Python pattern \d+\.?\d* used for sizes and counts throughout. -/
def rnum : RE := rcat [rplus rdigit, .opt true (.chr '.'), .star true rdigit]

/- ----------------------------------------------------------------------
Regex patterns of src/utils.py, transcribed construct by construct.
---------------------------------------------------------------------- -/

/-- Source units_regex alternation, in the written order:
kg|kilograms|kilogram|gm|g|grams|gram|l|litres|liters|litre|liter|ltr|ml|
pcs|pieces|piece|pc|packs|pack|pck|m|sqft|sq\.ft|sq\s*ft . -/
def unitAltsRE : RE :=
  ralts [rstr "kg", rstr "kilograms", rstr "kilogram", rstr "gm", rstr "g",
    rstr "grams", rstr "gram", rstr "l", rstr "litres", rstr "liters",
    rstr "litre", rstr "liter", rstr "ltr", rstr "ml", rstr "pcs",
    rstr "pieces", rstr "piece", rstr "pc", rstr "packs", rstr "pack",
    rstr "pck", rstr "m", rstr "sqft",
    rcat [rstr "sq", .chr '.', rstr "ft"],
    rcat [rstr "sq", .star true rsp, rstr "ft"]]

/-- Source units_regex: the alternation captured as group n, followed by a
word boundary. -/
def unitsRE (n : Nat) : RE := .seq (.grp n unitAltsRE) .wb

/-- Source keyword group (?:packs?|pcs|pieces?|sets?). -/
def packKwRE : RE :=
  ralts [rcat [rstr "pack", .opt true (.chr 's')], rstr "pcs",
    rcat [rstr "piece", .opt true (.chr 's')],
    rcat [rstr "set", .opt true (.chr 's')]]

/-- Parenthesised-quantity pattern \((\d+(?:-\d+)?)\s*UNITS\) (utils.py line
174), checked before the main pattern list. -/
def parenPatRE : RE :=
  rcat [.chr '(',
    .grp 1 (rcat [rplus rdigit, .opt true (rcat [.chr '-', rplus rdigit])]),
    .star true rsp, unitsRE 2, .chr ')']

/-- Multipack pattern 1, SIZE x COUNT:
(\d+\.?\d*)\s*UNITS\s*[xX]\s*(\d+\.?\d*)\b (the input is lowercased before
searching, so [xX] is the literal x). -/
def pat1RE : RE :=
  rcat [.grp 1 rnum, .star true rsp, unitsRE 2, .star true rsp, .chr 'x',
    .star true rsp, .grp 3 rnum, .wb]

/-- Multipack pattern 2, COUNT x SIZE:
(\d+\.?\d*)\s*(?:packs?|pcs|pieces?|sets?)?\s*[xX]\s*(\d+\.?\d*)\s*UNITS\b . -/
def pat2RE : RE :=
  rcat [.grp 1 rnum, .star true rsp, .opt true packKwRE, .star true rsp,
    .chr 'x', .star true rsp, .grp 2 rnum, .star true rsp, unitsRE 3, .wb]

/-- Multipack pattern 3, SIZE ... COUNT with trailing keyword:
(\d+\.?\d*)\s*UNITS(?!.*\d+-\d+).*?(?<!-)(\ d+)(?!-)\s*(?:packs?|pcs|pieces?|sets?)\b .
The third group is transcribed exactly as written in the source: the escaped
space \ followed by d+, which matches a literal space and then letters d,
not digits. -/
def pat3RE : RE :=
  rcat [.grp 1 rnum, .star true rsp, unitsRE 2,
    .nla (rcat [.star true rdot, rplus rdigit, .chr '-', rplus rdigit]),
    .star false rdot,
    .nlb (fun left => left.head? == some '-'),
    .grp 3 (rcat [.chr ' ', rplus (.chr 'd')]),
    .nla (.chr '-'),
    .star true rsp, packKwRE, .wb]

/-- Multipack pattern 4, SIZE ... pack of COUNT:
(\d+\.?\d*)\s*UNITS.*?pack of\s*(\d+)\b . -/
def pat4RE : RE :=
  rcat [.grp 1 rnum, .star true rsp, unitsRE 2, .star false rdot,
    rstr "pack of", .star true rsp, .grp 3 (rplus rdigit), .wb]

/-- Multipack pattern 5, COUNT ... SIZE:
(?<!\d-)(\d+)(?!-\d)\s*(?:packs?|pcs|pieces?|sets?)\s*(?:of|-)?(?!\s*\().*?(\d+\.?\d*)\s*UNITS\b . -/
def pat5RE : RE :=
  rcat [.nlb (fun left => match left with | '-' :: d :: _ => d.isDigit | _ => false),
    .grp 1 (rplus rdigit),
    .nla (rcat [.chr '-', rdigit]),
    .star true rsp, packKwRE, .star true rsp,
    .opt true (ralts [rstr "of", .chr '-']),
    .nla (rcat [.star true rsp, .chr '(']),
    .star false rdot, .grp 2 rnum, .star true rsp, unitsRE 3, .wb]

/-- Single-unit pattern with optional hyphenated range:
(\d+\.?\d*(?:-\d+\.?\d*)?)\s*UNITS\b . -/
def pat6RE : RE :=
  rcat [.grp 1 (rcat [rnum, .opt true (rcat [.chr '-', rnum])]),
    .star true rsp, unitsRE 2, .wb]

/-- Noise pattern of calculate_relevance_score (utils.py line 103):
\b(\d+\s*(kg|g|l|ml|pcs|pack|pk|bunch|grams|kilogram|oz|cm|mm|mtr))\b|[\(\)\-\,\+] . -/
def noisePatRE : RE :=
  .alt
    (rcat [.wb,
      .grp 1 (rcat [rplus rdigit, .star true rsp,
        .grp 2 (ralts [rstr "kg", rstr "g", rstr "l", rstr "ml", rstr "pcs",
          rstr "pack", rstr "pk", rstr "bunch", rstr "grams", rstr "kilogram",
          rstr "oz", rstr "cm", rstr "mm", rstr "mtr"])]),
      .wb])
    (.cls (fun c => c == '(' || c == ')' || c == '-' || c == ',' || c == '+'))

/-- Whole-word pattern \b term \b used by classify_text, by
calculate_relevance_score, and as the spec's strict word-boundary notion. -/
def wordRE (kw : List Char) : RE := rcat [.wb, rcat (kw.map RE.chr), .wb]

/- ----------------------------------------------------------------------
Category configuration.  The source loads categories.json when present and
otherwise uses the built-in defaults of load_category_config; the repository
ships no categories.json, so the defaults below (utils.py lines 12-23) are
the operative table.
---------------------------------------------------------------------- -/

/-- Default CATEGORIES table, in dict insertion order. -/
def CATEGORIES : List (String × List String) :=
  [("Fresh Produce", ["onion", "potato", "tomato", "carrot", "apple", "banana", "garlic"]),
   ("Dairy & Eggs", ["milk", "egg", "cheese", "yogurt"]),
   ("Meat & Seafood", ["chicken", "beef", "fish"]),
   ("Bakery", ["bread"]),
   ("Snacks & Sweets", ["chip", "cookie", "chocolate"]),
   ("Beverages", ["water", "juice", "soda"]),
   ("Pantry", ["rice", "pasta", "oil"])]

/-- Default FRESH_DISQUALIFIERS list. -/
def FRESH_DISQUALIFIERS : List String := ["chip", "powder", "sauce", "paste", "jam", "pickle"]

/-- Substring disqualifier test any(dq in text for dq in FRESH_DISQUALIFIERS). -/
def isProcessedL (t : List Char) : Bool :=
  FRESH_DISQUALIFIERS.any (fun dq => substrOf dq.data t)

/-- Category loop of classify_text: skip Fresh Produce when the text carries
a disqualifier, otherwise return the first category one of whose keywords
occurs as a whole word. -/
def classifyLoop (t : List Char) (proc : Bool) : List (String × List String) → Option String
  | [] => none
  | (cat, kws) :: rest =>
    if cat == "Fresh Produce" && proc then classifyLoop t proc rest
    else if kws.any (fun kw => reTest (wordRE kw.data) t) then some cat
    else classifyLoop t proc rest

/-- Core of classify_text on character lists. -/
def classifyL (text : List Char) : Option String :=
  if text.isEmpty then none
  else
    let t := lowerL text
    classifyLoop t (isProcessedL t) CATEGORIES

/-- Model of classify_text (utils.py lines 38-59). -/
def classify_text (text : String) : Option String := classifyL text.data

/-- Model of calculate_relevance_score (utils.py lines 61-130).  Decimal
literals are written as exact rationals: 0.5 = 1/2, 0.3 = 3/10, 0.2 = 1/5,
0.4 = 2/5, 0.15 = 3/20, 0.05 = 1/20, 0.1 = 1/10. -/
def calculate_relevance_score (product_name query : String) : ℚ :=
  let name := lowerL product_name.data
  let q := lowerL query.data
  let query_terms := pySplitWs q
  if query_terms.isEmpty then 0
  else
    let all_terms_as_words := query_terms.all (fun term => reTest (wordRE term) name)
    let s1 : ℚ := if name == q then mkRat 1 2 else 0
    let s2 : ℚ := qadd s1 (if q.isPrefixOf name then mkRat 3 10 else 0)
    let q_cat := classifyL q
    let p_cat := classifyL name
    let is_processed := isProcessedL name
    let s3 : ℚ :=
      if q_cat == some "Fresh Produce" then
        if is_processed then qsub s2 (mkRat 1 2)
        else if p_cat == some "Fresh Produce" && all_terms_as_words then
          let clean0 := pyStrip (reSubAll noisePatRE [] name)
          let clean := joinSpace (pySplitWs clean0)
          qadd (qadd s2 (mkRat 1 5)) (if clean == q then mkRat 2 5 else 0)
        else s2
      else if q_cat.isSome && (p_cat == q_cat) && all_terms_as_words then qadd s2 (mkRat 1 5)
      else s2
    let s4 : ℚ := query_terms.enum.foldl (fun sc it =>
      if reTest (wordRE it.2) name then
        if pyFind it.2 name < 20 then qadd sc (qdiv (mkRat 3 20) ((it.1 + 1 : Nat) : ℚ))
        else qadd sc (mkRat 1 20)
      else if substrOf it.2 name then qsub sc (mkRat 1 10)
      else sc) s3
    qmax 0 (qmin s4 1)

/-- Leftmost numeric token of the pattern (\d+\.?\d*|\d+) interpreted as a
float, the scan at the heart of parse_price. -/
def firstNumTokenQ : List Char → Option ℚ
  | [] => none
  | c :: rest =>
    if c.isDigit then
      let intPart := c :: rest.takeWhile Char.isDigit
      let after := rest.drop (intPart.length - 1)
      match after with
      | '.' :: tl =>
        let frac := tl.takeWhile Char.isDigit
        some (mkRat (digitsToNat intPart * 10 ^ frac.length + digitsToNat frac) (10 ^ frac.length))
      | _ => some (digitsToNat intPart : ℚ)
    else firstNumTokenQ rest

/-- Model of parse_price (utils.py lines 132-155): empty and the sentinel
N/A give none, commas are stripped, then the first numeric token is the
value; no numeric token gives none, and nothing raises. -/
def parse_price (price_str : String) : Option ℚ :=
  if price_str == "" || price_str == "N/A" then none
  else firstNumTokenQ (price_str.data.filter (fun c => c != ','))

/-- Range-midpoint rule shared by the paren branch (lines 181-186) and the
single-unit branch (lines 282-287): a hyphenated range collapses to the mean
of its first two parts, otherwise the value is parsed directly; a parse
failure propagates as none (the except/continue paths). -/
def rangeMidQ (qstr : List Char) : Option ℚ :=
  if qstr.contains '-' then
    match pySplitOnChar '-' qstr with
    | p0 :: p1 :: _ => do
      let a ← pyFloatQ p0
      let b ← pyFloatQ p1
      pure (qdiv (qadd a b) 2)
    | _ => none
  else pyFloatQ qstr

/-- Unit canonicalisation of the paren branch (utils.py lines 188-201). -/
def canonUnitParen (u : String) : String :=
  if ["kg", "kilogram", "kilograms"].contains u then "kg"
  else if ["gm", "g", "gram", "grams"].contains u then "g"
  else if ["l", "ltr", "litre", "liter", "litres", "liters"].contains u then "l"
  else if u == "ml" then "ml"
  else if ["pcs", "piece", "pieces", "pc"].contains u then "pcs"
  else if ["sqft", "sq.ft", "sq ft"].contains u then "sqft"
  else u

/-- Unit canonicalisation of the main loop (utils.py lines 289-302); unlike
the paren branch it also folds pck, pack and packs into pcs. -/
def canonUnitLoop (u : String) : String :=
  if ["kg", "kilogram", "kilograms"].contains u then "kg"
  else if ["gm", "g", "gram", "grams"].contains u then "g"
  else if ["l", "ltr", "litre", "liter", "litres", "liters"].contains u then "l"
  else if u == "ml" then "ml"
  else if ["pcs", "piece", "pieces", "pc", "pck", "pack", "packs"].contains u then "pcs"
  else if ["sqft", "sq.ft", "sq ft"].contains u then "sqft"
  else u

/-- Units treated as SIZE-first in the multipack branch (utils.py line 256). -/
def sizeUnits : List String :=
  ["kg", "g", "l", "ml", "m", "ltr", "litre", "liter", "gram", "grams", "kilogram", "kilograms"]

/-- Multipack value computation (utils.py lines 252-277) including the
deduplication rule: size multiplied by count unless the two are equal. -/
def multiComputeQ (g1 g2 g3 : List Char) : Option (ℚ × String) := do
  let v1 ← pyFloatQ g1
  if sizeUnits.contains (String.mk g2) then
    let count ← pyFloatQ g3
    let value := if v1 == count then v1 else qmul v1 count
    pure (value, canonUnitLoop (String.mk (lowerL g2)))
  else
    let size ← pyFloatQ g2
    let value := if v1 == size then size else qmul v1 size
    pure (value, canonUnitLoop (String.mk (lowerL g3)))

/-- Single-unit value computation (utils.py lines 278-302). -/
def singleComputeQ (g1 glast : List Char) : Option (ℚ × String) := do
  let value ← rangeMidQ g1
  pure (value, canonUnitLoop (String.mk (lowerL glast)))

/-- Paren branch of extract_quantity (utils.py lines 174-203); a failure
inside falls through to the pattern loop, modelled as none. -/
def parenAttempt (lname : List Char) : Option (ℚ × String) :=
  match reSearch parenPatRE lname with
  | none => none
  | some caps => do
    let value ← rangeMidQ ((getGrp caps 1).getD [])
    pure (value, canonUnitParen (String.mk (lowerL ((getGrp caps 2).getD []))))

/-- Pattern list of extract_quantity with the is_multipack flags
(utils.py lines 208-240). -/
def extractPatterns : List (RE × Bool) :=
  [(pat1RE, true), (pat2RE, true), (pat3RE, true), (pat4RE, true), (pat5RE, true),
   (pat6RE, false)]

/-- One iteration of the pattern loop (utils.py lines 242-304): search, then
the approx suppression for multipacks, then the value computation; every
multipack pattern declares exactly three capture groups and the single-unit
pattern two, so the source's len(groups) >= 3 test coincides with the
is_multipack flag. -/
def attemptPattern (lname : List Char) (pm : RE × Bool) : Option (ℚ × String) :=
  match reSearch pm.1 lname with
  | none => none
  | some caps =>
    if pm.2 && substrOf "approx".data lname then none
    else if pm.2 then
      multiComputeQ ((getGrp caps 1).getD []) ((getGrp caps 2).getD []) ((getGrp caps 3).getD [])
    else
      singleComputeQ ((getGrp caps 1).getD []) ((getGrp caps 2).getD [])

/-- Fold over the pattern list: the first pattern whose attempt succeeds
provides the result. -/
def tryPatterns (lname : List Char) : List (RE × Bool) → Option ℚ × Option String
  | [] => (none, none)
  | pm :: rest =>
    match attemptPattern lname pm with
    | some (v, u) => (some v, some u)
    | none => tryPatterns lname rest

/-- Model of extract_quantity (utils.py lines 157-306). -/
def extract_quantity (product_name : String) : Option ℚ × Option String :=
  if product_name == "" then (none, none)
  else
    let lname := lowerL product_name.data
    match parenAttempt lname with
    | some (v, u) => (some v, some u)
    | none => tryPatterns lname extractPatterns

/-- Model of normalize_quantity (utils.py lines 308-336): zero value or
empty unit give 0, kg and litre variants pass through, g and ml are divided
by 1000, anything else passes through. -/
def normalize_quantity (value : ℚ) (unit : String) : ℚ :=
  if value == 0 || unit == "" then 0
  else
    let u := String.mk (lowerL unit.data)
    if u == "kg" then value
    else if u == "g" then qdiv value 1000
    else if ["l", "ltr", "litre", "liter"].contains u then value
    else if u == "ml" then qdiv value 1000
    else value

/- ----------------------------------------------------------------------
Jaccard similarity (utils.py lines 338-385).
---------------------------------------------------------------------- -/

/-- Jaccard quantity pattern 1: \d+\.?\d*\s*[xX]\s*\d+\.?\d*\s*(kg|g|l|ml|ltr)?\b . -/
def jq1RE : RE :=
  rcat [rnum, .star true rsp, .chr 'x', .star true rsp, rnum, .star true rsp,
    .opt true (.grp 1 (ralts [rstr "kg", rstr "g", rstr "l", rstr "ml", rstr "ltr"])), .wb]

/-- Jaccard quantity pattern 2: \d+\.?\d*\s*(kg|g|l|ml|ltr)\s*[xX]\s*\d+\.?\d*\b . -/
def jq2RE : RE :=
  rcat [rnum, .star true rsp,
    .grp 1 (ralts [rstr "kg", rstr "g", rstr "l", rstr "ml", rstr "ltr"]),
    .star true rsp, .chr 'x', .star true rsp, rnum, .wb]

/-- Jaccard quantity pattern 3:
\d+\.?\d*\s*(kg|kilograms?|g|grams?|l|ltr|litres?|liters?|ml|pcs|pieces?|pc|packs?|pck|sqft|sq\\.?\\s*ft)\b .
The last alternative keeps the doubled backslashes of the source raw string,
so it demands literal backslash characters and never matches listing text. -/
def jq3RE : RE :=
  rcat [rnum, .star true rsp,
    .grp 1 (ralts [rstr "kg", rcat [rstr "kilogram", .opt true (.chr 's')],
      rstr "g", rcat [rstr "gram", .opt true (.chr 's')],
      rstr "l", rstr "ltr", rcat [rstr "litre", .opt true (.chr 's')],
      rcat [rstr "liter", .opt true (.chr 's')], rstr "ml", rstr "pcs",
      rcat [rstr "piece", .opt true (.chr 's')], rstr "pc",
      rcat [rstr "pack", .opt true (.chr 's')], rstr "pck", rstr "sqft",
      rcat [rstr "sq", .chr '\\', .opt true rdot, .chr '\\',
        .star true (.chr 's'), rstr "ft"]]),
    .wb]

/-- Jaccard quantity pattern 4: \b[xX]\s*\d+\b . -/
def jq4RE : RE := rcat [.wb, .chr 'x', .star true rsp, rplus rdigit, .wb]

/-- Jaccard quantity pattern 5: \b(pack of|set of|box of)\s*\d+\b . -/
def jq5RE : RE :=
  rcat [.wb, .grp 1 (ralts [rstr "pack of", rstr "set of", rstr "box of"]),
    .star true rsp, rplus rdigit, .wb]

/-- Jaccard qty_patterns list in order. -/
def jqPatterns : List RE := [jq1RE, jq2RE, jq3RE, jq4RE, jq5RE]

/-- Character class [^a-z0-9\\s] of the source with its doubled backslash:
everything outside lowercase letters, digits and the backslash character is
replaced (the letter s listed in the class is already inside a-z). -/
def jaccardScrub : RE :=
  .cls (fun c => !(('a' ≤ c && c ≤ 'z') || c.isDigit || c == '\\'))

/-- Clean a name for jaccard_similarity: strip quantity tokens, then replace
remaining special characters by spaces. -/
def jaccardClean (name : List Char) : List Char :=
  let c := jqPatterns.foldl (fun s p => reSubAll p [' '] s) (lowerL name)
  reSubAll jaccardScrub [' '] c

/-- Model of jaccard_similarity (utils.py lines 338-385): word-set
intersection over union after removing quantity tokens and punctuation. -/
def jaccard_similarity (name1 name2 : String) : ℚ :=
  let tokens1 := (pySplitWs (jaccardClean name1.data)).dedup
  let tokens2 := (pySplitWs (jaccardClean name2.data)).dedup
  if tokens1.isEmpty || tokens2.isEmpty then 0
  else
    let inter := tokens1.filter (fun w => tokens2.contains w)
    let union := tokens1 ++ tokens2.filter (fun w => !(tokens1.contains w))
    if union.isEmpty then 0 else qdiv (inter.length : ℚ) (union.length : ℚ)

/- ----------------------------------------------------------------------
Data model: scraped listings, parsed listings, matched groups.
---------------------------------------------------------------------- -/

/-- One scraped product as handed to the matcher: the name (a missing name
key reads as the empty string), and the optional price text, image url and
product url. -/
structure RawP where
  name : String
  price : Option String
  image_url : Option String
  product_url : Option String
deriving DecidableEq, Repr

/-- One store's result entry under a store key of the store_results mapping. -/
structure StoreData where
  products : List RawP
deriving DecidableEq, Repr

/-- One parsed listing as built by parse_products_regex. -/
structure ParsedP where
  original_name : String
  brand : String
  product_name : String
  quantity_value : Option ℚ
  quantity_unit : Option String
  price : Option String
  image_url : Option String
  product_url : Option String
  store : String
deriving DecidableEq, Repr

/-- Per-store entry of a matched group's stores map. -/
structure StoreEntry where
  name : String
  price : Option ℚ
  product_url : Option String
deriving DecidableEq, Repr

/-- One matched product group.  In the source the match_type and
relevance_score keys are added by match_products; here they are fields that
group_parsed_products initialises to the values match_products assigns when
no query is given ("partial", 0). -/
structure MatchedGroup where
  matched_name : String
  brand : String
  primary_image : Option String
  quantity_value : Option ℚ
  quantity_unit : Option String
  normalized_unit_price : Option ℚ
  stores : List (String × StoreEntry)
  match_type : String
  relevance_score : ℚ
deriving DecidableEq, Repr

/-- Model of str.split(' ', 1): the piece before the first space, and the
remainder when a space exists. -/
def splitFirstSpace : List Char → List Char × Option (List Char)
  | [] => ([], none)
  | c :: rest =>
    if c == ' ' then ([], some rest)
    else
      let p := splitFirstSpace rest
      (c :: p.1, p.2)

/-- Model of parse_products_regex (utils.py lines 387-437): drop listings
with an empty name, extract the quantity, take the first whitespace token as
the brand, and keep only alphanumerics and collapsed spaces of the rest as
the product name.  The source's re.sub of \s+ to single spaces followed by
strip is realised by splitting on whitespace and rejoining. -/
def parse_products_regex (products : List RawP) (store_name : String) : List ParsedP :=
  products.filterMap (fun product =>
    if product.name == "" then none
    else
      let qp := extract_quantity product.name
      let parts := splitFirstSpace (pyStrip product.name.data)
      let brand := String.mk (pyStrip parts.1)
      let raw_name := match parts.2 with | some r => pyStrip r | none => []
      let cleaned := raw_name.filter (fun c => c.isAlphanum || pyIsSpace c)
      let product_name := String.mk (joinSpace (pySplitWs cleaned))
      some { original_name := product.name, brand := brand,
             product_name := product_name,
             quantity_value := qp.1, quantity_unit := qp.2,
             price := product.price, image_url := product.image_url,
             product_url := product.product_url, store := store_name })

/-- Bucket key (brand, quantity_value, quantity_unit) of utils.py lines 454-467. -/
abbrev BKey := String × Option ℚ × Option String

/-- Bucket key of one parsed listing: lower-cased stripped brand, with the
sentinel unknown for an empty brand. -/
def bucketKeyOf (p : ParsedP) : BKey :=
  (if p.brand == "" then "unknown" else String.mk (lowerL (pyStrip p.brand.data)),
   p.quantity_value, p.quantity_unit)

/-- Append a listing to its bucket, creating the bucket at the end on first
sight, as CPython dicts do. -/
def addBucket : List (BKey × List ParsedP) → BKey → ParsedP → List (BKey × List ParsedP)
  | [], k, p => [(k, [p])]
  | (k0, ps) :: rest, k, p =>
    if k0 == k then (k0, ps ++ [p]) :: rest
    else (k0, ps) :: addBucket rest k p

/-- Buckets of a parsed listing list, in insertion order. -/
def mkBuckets (l : List ParsedP) : List (BKey × List ParsedP) :=
  l.foldl (fun bs p => addBucket bs (bucketKeyOf p) p) []

/-- Greedy single-pass clustering within one bucket (utils.py lines
481-507): the first unprocessed listing seeds a cluster that absorbs every
later listing whose jaccard similarity with the seed's original name reaches
the 0.8 threshold.  The fuel is the list length, which the recursion never
exhausts since each step consumes at least the seed. -/
def clusterLoop : Nat → List ParsedP → List (List ParsedP)
  | 0, _ => []
  | _ + 1, [] => []
  | fuel + 1, x :: rest =>
    let pr := rest.partition (fun y =>
      decide (mkRat 4 5 ≤ jaccard_similarity x.original_name y.original_name))
    (x :: pr.1) :: clusterLoop fuel pr.2

/-- Clusters of one bucket's item list. -/
def clustersOf (items : List ParsedP) : List (List ParsedP) :=
  clusterLoop items.length items

/-- Decide whether the stores dict entry for a store is replaced by a newly
seen listing (utils.py lines 523-524): yes when the store is new, or when
the new price exists and the stored price is missing or larger. -/
def storeUpdCond (sd : List (String × StoreEntry)) (store : String) (cp : Option ℚ) : Bool :=
  match sd.find? (fun e => e.1 == store) with
  | none => true
  | some e =>
    match cp with
    | none => false
    | some c =>
      match e.2.price with
      | none => true
      | some old => decide (c < old)

/-- Replace or append an entry of the stores dict, keeping insertion order. -/
def updateAssoc (sd : List (String × StoreEntry)) (store : String) (entry : StoreEntry) :
    List (String × StoreEntry) :=
  match sd with
  | [] => [(store, entry)]
  | e :: rest =>
    if e.1 == store then (store, entry) :: rest
    else e :: updateAssoc rest store entry

/-- Model of parse_price applied to a possibly missing price value; Python's
parse_price(None) takes the falsy branch and returns None. -/
def parsePriceOpt : Option String → Option ℚ
  | none => none
  | some s => parse_price s

/-- One step of the stores-dict and minimum-price fold (utils.py lines
514-530): skip empty store names, lower the running minimum when the parsed
price exists and is smaller, and insert or improve the store's entry. -/
def storeStep (acc : List (String × StoreEntry) × Option ℚ) (prod : ParsedP) :
    List (String × StoreEntry) × Option ℚ :=
  if prod.store == "" then acc
  else
    let cp := parsePriceOpt prod.price
    let minp := match cp, acc.2 with
      | some c, none => some c
      | some c, some m => if c < m then some c else some m
      | none, m => m
    let sd :=
      if storeUpdCond acc.1 prod.store cp then
        updateAssoc acc.1 prod.store
          { name := prod.original_name, price := cp, product_url := prod.product_url }
      else acc.1
    (sd, minp)

/-- Stores-dict and minimum-price fold over one cluster (utils.py lines
511-530).  min_price is none while still float('inf'). -/
def storesFold (cluster : List ParsedP) : List (String × StoreEntry) × Option ℚ :=
  cluster.foldl storeStep ([], none)

/-- Format one cluster as a MatchedGroup (utils.py lines 510-565).  The
empty-cluster case never arises from clusterLoop; it returns a degenerate
group so the function is total. -/
def formatCluster : List ParsedP → MatchedGroup
  | [] =>
    { matched_name := "", brand := "", primary_image := none,
      quantity_value := none, quantity_unit := none,
      normalized_unit_price := none, stores := [],
      match_type := "partial", relevance_score := 0 }
  | c0 :: rest =>
    let cluster := c0 :: rest
    let sm := storesFold cluster
    let primary_image :=
      (cluster.find? (fun prod =>
        match prod.image_url with | some s => s != "" | none => false)).bind
        (fun prod => prod.image_url)
    let unit_price : Option ℚ :=
      match c0.quantity_value, c0.quantity_unit with
      | some v, some u =>
        if !(v == 0) && !(u == "") then
          let nq := normalize_quantity v u
          if 0 < nq then sm.2.map (fun m => qdiv m nq) else none
        else none
      | _, _ => none
    { matched_name := c0.original_name, brand := c0.brand,
      primary_image := primary_image,
      quantity_value := c0.quantity_value, quantity_unit := c0.quantity_unit,
      normalized_unit_price := unit_price, stores := sm.1,
      match_type := "partial", relevance_score := 0 }

/-- Model of group_parsed_products (utils.py lines 439-567): bucket by
(brand, quantity, unit), cluster each bucket by name similarity, format each
cluster. -/
def group_parsed_products (parsed_products : List ParsedP) : List MatchedGroup :=
  (mkBuckets parsed_products).flatMap (fun b => (clustersOf b.2).map formatCluster)

/- ----------------------------------------------------------------------
Orchestrator (utils.py lines 569-667) and sorting (lines 831-864).
---------------------------------------------------------------------- -/

/-- Store keys the orchestrator reads (utils.py line 589). -/
def storeNames : List String := ["carrefour", "noon", "talabat", "amazon"]

/-- Model of store_results.get(name, {}).get('products', []) over the
insertion-ordered mapping. -/
def getStoreProducts (store_results : List (String × StoreData)) (k : String) : List RawP :=
  match store_results.find? (fun e => e.1 == k) with
  | some e => e.2.products
  | none => []

/-- Error-sentinel filter of utils.py line 591. -/
def filterValidProducts (ps : List RawP) : List RawP :=
  ps.filter (fun p => !(substrOf "Error".data p.name.data) && p.name != "No results found")

/-- Relevance and match-type assignment for one group (utils.py lines
620-642).  The exact criterion: every query term occurs as a substring of
the lowered matched name, the relevance is positive, and either the
relevance clears 0.25 or the query's category is Fresh Produce. -/
def assignMatch (query : String) (item : MatchedGroup) : MatchedGroup :=
  if query == "" then { item with match_type := "partial", relevance_score := 0 }
  else
    let query_terms := pySplitWs (lowerL query.data)
    let name := lowerL item.matched_name.data
    let present_count := (query_terms.filter (fun t => substrOf t name)).length
    let relevance := calculate_relevance_score (String.mk name) query
    let mt :=
      if present_count == query_terms.length && decide (0 < relevance) &&
         (decide (mkRat 1 4 < relevance) || classifyL query.data == some "Fresh Produce")
      then "exact" else "partial"
    { item with match_type := mt, relevance_score := relevance }

/-- Match-type component of the sort key: 0 for exact, 1 otherwise. -/
def matchVal (g : MatchedGroup) : Nat := if g.match_type == "exact" then 0 else 1

/-- Comparison on optional unit prices with none acting as +infinity. -/
def optPriceLe : Option ℚ → Option ℚ → Bool
  | none, none => true
  | none, some _ => false
  | some _, none => true
  | some a, some b => decide (a ≤ b)

/-- Lexicographic order on the composite sort key of get_sort_key
(utils.py lines 644-657): relevance descending, then exact before partial,
then unit price ascending with missing prices last. -/
def keyLe (a b : MatchedGroup) : Bool :=
  if b.relevance_score < a.relevance_score then true
  else if a.relevance_score < b.relevance_score then false
  else if matchVal a < matchVal b then true
  else if matchVal b < matchVal a then false
  else optPriceLe a.normalized_unit_price b.normalized_unit_price

/-- All parsed listings of the four stores in order (utils.py lines 587-604). -/
def allParsedOf (store_results : List (String × StoreData)) : List ParsedP :=
  (storeNames.map (fun s =>
    parse_products_regex (filterValidProducts (getStoreProducts store_results s)) s)).flatten

/-- Model of match_products (utils.py lines 569-667).  The unused
openrouter_api_key parameter is dropped; the AI-parser branch is dead code.
Python's list.sort is stable, so it is modelled by a stable sort (insertion
sort); for the total preorder induced by keyLe the two produce the same
list. -/
def match_products (store_results : List (String × StoreData)) (query : String) :
    List MatchedGroup :=
  let all_parsed := allParsedOf store_results
  if all_parsed.isEmpty then []
  else
    let matched := group_parsed_products all_parsed
    if matched.isEmpty then matched
    else List.insertionSort (fun a b => keyLe a b = true) (matched.map (assignMatch query))

/-- Lexicographic character-list comparison, Python's str ordering. -/
def strLeL : List Char → List Char → Bool
  | [], _ => true
  | _ :: _, [] => false
  | a :: as, b :: bs => if a < b then true else if b < a then false else strLeL as bs

/-- Normalized-quantity sort key of the quantity branch (utils.py lines 851-858). -/
def qtyKey (g : MatchedGroup) : ℚ :=
  match g.quantity_value, g.quantity_unit with
  | some v, some u => if !(v == 0) && !(u == "") then normalize_quantity v u else 0
  | _, _ => 0

/-- Model of sort_products (utils.py lines 831-864), with Python's stable
sorted modelled by insertion sort as above; sorted with reverse=True behaves
as if every comparison were reversed while keeping stability, modelled by
flipping the Boolean comparison. -/
def sort_products (matched_products : List MatchedGroup) (sort_by : String)
    (ascending : Bool) : List MatchedGroup :=
  if sort_by == "price" then
    if ascending then
      List.insertionSort (fun a b =>
        optPriceLe a.normalized_unit_price b.normalized_unit_price = true) matched_products
    else
      List.insertionSort (fun a b =>
        optPriceLe b.normalized_unit_price a.normalized_unit_price = true) matched_products
  else if sort_by == "quantity" then
    if ascending then
      List.insertionSort (fun a b => qtyKey a ≤ qtyKey b) matched_products
    else
      List.insertionSort (fun a b => qtyKey b ≤ qtyKey a) matched_products
  else if sort_by == "name" then
    if ascending then
      List.insertionSort (fun a b =>
        strLeL (lowerL a.matched_name.data) (lowerL b.matched_name.data) = true) matched_products
    else
      List.insertionSort (fun a b =>
        strLeL (lowerL b.matched_name.data) (lowerL a.matched_name.data) = true) matched_products
  else matched_products

/- ----------------------------------------------------------------------
Claims.
---------------------------------------------------------------------- -/

/-- C2: posed for the shape SIZE UNIT ... COUNT KEYWORD the claim expects
SIZE times COUNT, but on the claim's own example input the source returns
the plain single-unit value: the third capture group of multipack pattern 3
is written (\ d+) in the source, an escaped space followed by literal d
characters rather than digits, so the pattern can never capture a count and
the input falls through to the single-unit pattern. -/
theorem c2_implicit_multipack_eval :
    extract_quantity "21g 6 PCS" = (some 21, some "g") ∧
    ¬ extract_quantity "21g 6 PCS" = (some 126, some "g") := by
  constructor
  · decide
  · decide

/-- C3: for the Fresh Produce query onion, the fresh listing onion - red
(score 13/20) strictly outranks the processed listing onion chips 150g
(score 0, after the -0.5 disqualifier penalty and clamping). -/
theorem c3_processed_penalty_flips_ranking :
    calculate_relevance_score "onion chips 150g" "onion" <
      calculate_relevance_score "onion - red" "onion" ∧
    calculate_relevance_score "onion - red" "onion" = mkRat 13 20 ∧
    calculate_relevance_score "onion chips 150g" "onion" = 0 := by
  refine ⟨by decide, by decide, by decide⟩

/-- Code path of extract_quantity that remains once approx suppression
skips every multipack pattern: the paren branch followed directly by the
single-unit pattern. -/
def extract_quantity_nomulti (product_name : String) : Option ℚ × Option String :=
  if product_name == "" then (none, none)
  else
    let lname := lowerL product_name.data
    match parenAttempt lname with
    | some (v, u) => (some v, some u)
    | none => tryPatterns lname [(pat6RE, false)]

theorem attemptPattern_approx (lname : List Char) (p : RE)
    (h : substrOf "approx".data lname = true) :
    attemptPattern lname (p, true) = none := by
  unfold attemptPattern
  cases hs : reSearch p lname with
  | none => rfl
  | some caps => simp [h]

theorem tryPatterns_multi_skip (lname : List Char) (p : RE) (rest : List (RE × Bool))
    (h : substrOf "approx".data lname = true) :
    tryPatterns lname ((p, true) :: rest) = tryPatterns lname rest := by
  unfold tryPatterns
  rw [attemptPattern_approx _ _ h]
  cases rest with
  | nil => rfl
  | cons pm r => rfl

/-- C5: the word approx anywhere in the (lowercased) name suppresses every
multipack pattern, so extract_quantity degenerates to the paren-or-single
path and never multiplies; on the spec's example it returns (750, g). -/
theorem c5_approx_suppresses_multipack :
    (∀ name : String, substrOf "approx".data (lowerL name.data) = true →
      extract_quantity name = extract_quantity_nomulti name) ∧
    extract_quantity "Seed Potato - 750g - Approx 4 pieces per KG" = (some 750, some "g") := by
  constructor
  · intro name h
    unfold extract_quantity extract_quantity_nomulti
    cases hne : (name == "") with
    | true => rfl
    | false =>
      simp only [Bool.false_eq_true, if_false]
      cases hp : parenAttempt (lowerL name.data) with
      | some vu => rfl
      | none =>
        show tryPatterns _ extractPatterns = tryPatterns _ [(pat6RE, false)]
        unfold extractPatterns
        rw [tryPatterns_multi_skip _ _ _ h, tryPatterns_multi_skip _ _ _ h,
          tryPatterns_multi_skip _ _ _ h, tryPatterns_multi_skip _ _ _ h,
          tryPatterns_multi_skip _ _ _ h]
  · decide

theorem c5_witness :
    extract_quantity "Seed Potato - 750g - Approx 4 pieces per KG" =
      extract_quantity_nomulti "Seed Potato - 750g - Approx 4 pieces per KG" :=
  c5_approx_suppresses_multipack.1 _ (by decide)

theorem firstNumTokenQ_eq_none (l : List Char) (h : ∀ c ∈ l, c.isDigit = false) :
    firstNumTokenQ l = none := by
  induction l with
  | nil => rfl
  | cons c rest ih =>
    unfold firstNumTokenQ
    rw [h c (List.mem_cons_self c rest)]
    simp only [Bool.false_eq_true, if_false]
    exact ih (fun x hx => h x (List.mem_cons_of_mem c hx))

/-- C7: parse_price strips commas before scanning, takes the first numeric
token as the value (so the comma of 12,50 is a thousands separator, not a
decimal point), maps the empty string and the sentinel N/A to none, and maps
any string without a digit (hence without a numeric token) to none; the
function is total, so no input faults. -/
theorem c7_parse_price_spec :
    parse_price "AED 1,234.50" = some (1234.5 : ℚ) ∧
    parse_price "12,50" = some 1250 ∧
    parse_price "" = none ∧
    parse_price "N/A" = none ∧
    (∀ s : String, (∀ c ∈ s.data, c.isDigit = false) → parse_price s = none) := by
  refine ⟨?_, by decide, by decide, by decide, ?_⟩
  · have h1 : parse_price "AED 1,234.50" = some (mkRat 2469 2) := by decide
    rw [h1, Rat.mkRat_eq_div]
    norm_num
  · intro s h
    unfold parse_price
    cases hc : (s == "" || s == "N/A") with
    | true => rfl
    | false =>
      simp only [Bool.false_eq_true, if_false]
      exact firstNumTokenQ_eq_none _ (fun c hc2 => h c (List.mem_of_mem_filter hc2))

theorem c7_witness : parse_price "no price here" = none :=
  c7_parse_price_spec.2.2.2.2 "no price here" (by decide)

theorem normalize_quantity_g (w : ℚ) (hw : w ≠ 0) :
    normalize_quantity w "g" = qdiv w 1000 := by
  unfold normalize_quantity
  rw [show (w == 0 || ("g" == "")) = false by simp [hw]]
  rfl

theorem normalize_quantity_kg (w : ℚ) (hw : w ≠ 0) :
    normalize_quantity w "kg" = w := by
  unfold normalize_quantity
  rw [show (w == 0 || ("kg" == "")) = false by simp [hw]]
  rfl

theorem normalize_quantity_ml (w : ℚ) (hw : w ≠ 0) :
    normalize_quantity w "ml" = qdiv w 1000 := by
  unfold normalize_quantity
  rw [show (w == 0 || ("ml" == "")) = false by simp [hw]]
  rfl

theorem normalize_quantity_l (w : ℚ) (hw : w ≠ 0) :
    normalize_quantity w "l" = w := by
  unfold normalize_quantity
  rw [show (w == 0 || ("l" == "")) = false by simp [hw]]
  rfl

/-- C8: kg/g and l/ml magnitudes agree after normalization (g and ml are
divided by 1000), for every value; in particular the round trip through
extract_quantity on 1kg and 1000g lands on the same magnitude 1. -/
theorem c8_normalize_roundtrip :
    (∀ v : ℚ, normalize_quantity (1000 * v) "g" = normalize_quantity v "kg") ∧
    (∀ v : ℚ, normalize_quantity (1000 * v) "ml" = normalize_quantity v "l") ∧
    extract_quantity "1kg" = (some 1, some "kg") ∧
    extract_quantity "1000g" = (some 1000, some "g") ∧
    normalize_quantity 1000 "g" = normalize_quantity 1 "kg" := by
  have h1000 : (1000 : ℚ) ≠ 0 := by norm_num
  refine ⟨?_, ?_, by decide, by decide, by decide⟩
  · intro v
    by_cases hv : v = 0
    · subst hv; rw [mul_zero]; decide
    · rw [normalize_quantity_g _ (mul_ne_zero h1000 hv), normalize_quantity_kg _ hv,
        qdiv_eq, mul_div_cancel_left₀ _ h1000]
  · intro v
    by_cases hv : v = 0
    · subst hv; rw [mul_zero]; decide
    · rw [normalize_quantity_ml _ (mul_ne_zero h1000 hv), normalize_quantity_l _ hv,
        qdiv_eq, mul_div_cancel_left₀ _ h1000]

theorem pySplitOnChar_no_sep (c : Char) (l : List Char) (h : l.contains c = false) :
    pySplitOnChar c l = [l] := by
  induction l with
  | nil => rfl
  | cons x rest ih =>
    rw [List.contains_cons] at h
    have hx : (x == c) = false := by
      rcases Bool.or_eq_false_iff.mp h with ⟨h1, _⟩
      rw [beq_eq_false_iff_ne] at h1 ⊢
      exact fun e => h1 e.symm
    have hrest := ih (Bool.or_eq_false_iff.mp h).2
    conv_lhs => unfold pySplitOnChar
    rw [hx, hrest]
    rfl

theorem pySplitOnChar_append (c : Char) (A B : List Char) (h : A.contains c = false) :
    pySplitOnChar c (A ++ c :: B) = A :: pySplitOnChar c B := by
  induction A with
  | nil =>
    show pySplitOnChar c (c :: B) = [] :: pySplitOnChar c B
    conv_lhs => unfold pySplitOnChar
    rw [beq_self_eq_true]
    rfl
  | cons x A2 ih =>
    rw [List.contains_cons] at h
    have hx : (x == c) = false := by
      rcases Bool.or_eq_false_iff.mp h with ⟨h1, _⟩
      rw [beq_eq_false_iff_ne] at h1 ⊢
      exact fun e => h1 e.symm
    have hrec := ih (Bool.or_eq_false_iff.mp h).2
    show pySplitOnChar c (x :: (A2 ++ c :: B)) = (x :: A2) :: pySplitOnChar c B
    conv_lhs => unfold pySplitOnChar
    rw [hx, hrec]
    rfl

theorem rangeMidQ_append (A B : List Char) (a b : ℚ)
    (hA : A.contains '-' = false) (hB : B.contains '-' = false)
    (ha : pyFloatQ A = some a) (hb : pyFloatQ B = some b) :
    rangeMidQ (A ++ '-' :: B) = some ((a + b) / 2) := by
  have hc : (A ++ '-' :: B).contains '-' = true := by
    have : '-' ∈ A ++ '-' :: B := List.mem_append_right A (List.mem_cons_self _ _)
    exact List.elem_eq_true_of_mem this
  unfold rangeMidQ
  rw [hc, pySplitOnChar_append _ _ _ hA, pySplitOnChar_no_sep _ _ hB]
  show (do
    let x ← pyFloatQ A
    let y ← pyFloatQ B
    pure (qdiv (qadd x y) 2)) = some ((a + b) / 2)
  rw [ha, hb]
  show some (qdiv (qadd a b) 2) = some ((a + b) / 2)
  rw [qdiv_eq, qadd_eq]

theorem attemptPattern_search_none (lname : List Char) (p : RE) (b : Bool)
    (h : reSearch p lname = none) : attemptPattern lname (p, b) = none := by
  unfold attemptPattern
  rw [h]

theorem tryPatterns_cons_none (lname : List Char) (pm : RE × Bool) (rest : List (RE × Bool))
    (h : attemptPattern lname pm = none) :
    tryPatterns lname (pm :: rest) = tryPatterns lname rest := by
  unfold tryPatterns
  rw [h]
  cases rest with
  | nil => rfl
  | cons pm2 r => rfl

/-- Group extraction of the single-unit pattern, as the source reads
match.groups() of pattern 6: the quantity string and the unit string. -/
def p6groups (lname : List Char) : Option (List Char × List Char) :=
  (reSearch pat6RE lname).map (fun caps =>
    ((getGrp caps 1).getD [], (getGrp caps 2).getD []))

/-- C4: when no multipack pattern and no parenthesised quantity matches the
lowercased name and the single-unit pattern captures the hyphenated range
A-B with unit u, extract_quantity returns exactly the arithmetic midpoint
(a+b)/2 together with the canonical form of the unit. -/
theorem c4_range_midpoint (name : String) (A B u : List Char) (a b : ℚ)
    (hname : name ≠ "")
    (hparen : parenAttempt (lowerL name.data) = none)
    (h1 : reSearch pat1RE (lowerL name.data) = none)
    (h2 : reSearch pat2RE (lowerL name.data) = none)
    (h3 : reSearch pat3RE (lowerL name.data) = none)
    (h4 : reSearch pat4RE (lowerL name.data) = none)
    (h5 : reSearch pat5RE (lowerL name.data) = none)
    (h6 : p6groups (lowerL name.data) = some (A ++ '-' :: B, u))
    (hA : A.contains '-' = false) (hB : B.contains '-' = false)
    (ha : pyFloatQ A = some a) (hb : pyFloatQ B = some b) :
    extract_quantity name =
      (some ((a + b) / 2), some (canonUnitLoop (String.mk (lowerL u)))) := by
  obtain ⟨caps, hcaps, hf⟩ := Option.map_eq_some'.mp h6
  have hg1 : (getGrp caps 1).getD [] = A ++ '-' :: B := (Prod.mk.injEq _ _ _ _ ▸ hf).1
  have hg2 : (getGrp caps 2).getD [] = u := (Prod.mk.injEq _ _ _ _ ▸ hf).2
  unfold extract_quantity
  rw [show (name == "") = false from beq_eq_false_iff_ne.mpr hname]
  simp only [Bool.false_eq_true, if_false]
  rw [hparen]
  show tryPatterns (lowerL name.data) extractPatterns = _
  unfold extractPatterns
  rw [tryPatterns_cons_none _ _ _ (attemptPattern_search_none _ _ _ h1),
    tryPatterns_cons_none _ _ _ (attemptPattern_search_none _ _ _ h2),
    tryPatterns_cons_none _ _ _ (attemptPattern_search_none _ _ _ h3),
    tryPatterns_cons_none _ _ _ (attemptPattern_search_none _ _ _ h4),
    tryPatterns_cons_none _ _ _ (attemptPattern_search_none _ _ _ h5)]
  unfold tryPatterns attemptPattern
  rw [hcaps]
  simp only [Bool.false_and, Bool.false_eq_true, if_false]
  rw [hg1, hg2]
  unfold singleComputeQ
  rw [rangeMidQ_append _ _ _ _ hA hB ha hb]
  rfl

theorem c4_witness :
    extract_quantity "220-250g" =
      (some ((220 + 250 : ℚ) / 2), some (canonUnitLoop (String.mk (lowerL "g".data)))) :=
  c4_range_midpoint "220-250g" "220".data "250".data "g".data 220 250
    (by decide) (by decide) (by decide) (by decide) (by decide) (by decide)
    (by decide) (by decide) (by decide) (by decide) (by decide) (by decide)

theorem optPriceLe_total (x y : Option ℚ) : optPriceLe x y = true ∨ optPriceLe y x = true := by
  cases x with
  | none => cases y with
    | none => left; rfl
    | some b => right; rfl
  | some a => cases y with
    | none => left; rfl
    | some b =>
      rcases le_total a b with h | h
      · left; exact decide_eq_true h
      · right; exact decide_eq_true h

theorem optPriceLe_trans (x y z : Option ℚ) (h1 : optPriceLe x y = true)
    (h2 : optPriceLe y z = true) : optPriceLe x z = true := by
  cases x with
  | none => cases y with
    | none => cases z with
      | none => rfl
      | some c => exact absurd h2 (by simp [optPriceLe])
    | some b => exact absurd h1 (by simp [optPriceLe])
  | some a => cases z with
    | none => rfl
    | some c =>
      cases y with
      | none => exact absurd h2 (by simp [optPriceLe])
      | some b =>
        have hab : a ≤ b := of_decide_eq_true h1
        have hbc : b ≤ c := of_decide_eq_true h2
        exact decide_eq_true (hab.trans hbc)

/-- C9: sorting matched groups by price in ascending order permutes the
input and yields pairwise non-decreasing normalized unit prices, where a
missing price compares as plus infinity and therefore lands last. -/
theorem c9_sort_price_ascending (groups : List MatchedGroup) :
    (sort_products groups "price" true).Perm groups ∧
    (sort_products groups "price" true).Pairwise
      (fun a b => optPriceLe a.normalized_unit_price b.normalized_unit_price = true) := by
  have hs : sort_products groups "price" true =
      List.insertionSort (fun a b =>
        optPriceLe a.normalized_unit_price b.normalized_unit_price = true) groups := rfl
  rw [hs]
  constructor
  · exact List.perm_insertionSort _ _
  · haveI : IsTotal MatchedGroup (fun a b =>
        optPriceLe a.normalized_unit_price b.normalized_unit_price = true) :=
      ⟨fun a b => optPriceLe_total _ _⟩
    haveI : IsTrans MatchedGroup (fun a b =>
        optPriceLe a.normalized_unit_price b.normalized_unit_price = true) :=
      ⟨fun a b c => optPriceLe_trans _ _ _⟩
    exact List.sorted_insertionSort _ _

theorem addBucket_cons_eq (k0 : BKey) (ps : List ParsedP) (rest : List (BKey × List ParsedP))
    (k : BKey) (p : ParsedP) (hk : (k0 == k) = true) :
    addBucket ((k0, ps) :: rest) k p = (k0, ps ++ [p]) :: rest := by
  conv_lhs => unfold addBucket
  rw [hk]
  rfl

theorem addBucket_cons_ne (k0 : BKey) (ps : List ParsedP) (rest : List (BKey × List ParsedP))
    (k : BKey) (p : ParsedP) (hk : (k0 == k) = false) :
    addBucket ((k0, ps) :: rest) k p = (k0, ps) :: addBucket rest k p := by
  conv_lhs => unfold addBucket
  rw [hk]
  rfl

theorem addBucket_key (bs : List (BKey × List ParsedP)) (k : BKey) (p : ParsedP)
    (hinv : ∀ e ∈ bs, ∀ x ∈ e.2, bucketKeyOf x = e.1) (hp : bucketKeyOf p = k) :
    ∀ e ∈ addBucket bs k p, ∀ x ∈ e.2, bucketKeyOf x = e.1 := by
  induction bs with
  | nil =>
    intro e he x hx
    rw [List.mem_singleton.mp he] at hx ⊢
    rw [List.mem_singleton.mp hx, hp]
  | cons b rest ih =>
    obtain ⟨k0, ps⟩ := b
    intro e he x hx
    by_cases hk : (k0 == k) = true
    · rw [addBucket_cons_eq _ _ _ _ _ hk] at he
      rcases List.mem_cons.mp he with he | he
      · subst he
        rcases List.mem_append.mp hx with hx | hx
        · exact hinv (k0, ps) (List.mem_cons_self _ _) x hx
        · rw [List.mem_singleton.mp hx, hp]
          exact (beq_iff_eq.mp hk).symm
      · exact hinv e (List.mem_cons_of_mem _ he) x hx
    · rw [addBucket_cons_ne _ _ _ _ _ (Bool.not_eq_true _ ▸ hk)] at he
      rcases List.mem_cons.mp he with he | he
      · subst he
        exact hinv (k0, ps) (List.mem_cons_self _ _) x hx
      · exact ih (fun e2 he2 => hinv e2 (List.mem_cons_of_mem _ he2)) e he x hx

theorem addBucket_mem (bs : List (BKey × List ParsedP)) (k : BKey) (p : ParsedP)
    (e : BKey × List ParsedP) (x : ParsedP) (he : e ∈ addBucket bs k p) (hx : x ∈ e.2) :
    (∃ e0 ∈ bs, x ∈ e0.2) ∨ x = p := by
  induction bs with
  | nil =>
    rw [List.mem_singleton.mp he] at hx
    right
    exact List.mem_singleton.mp hx
  | cons b rest ih =>
    obtain ⟨k0, ps⟩ := b
    by_cases hk : (k0 == k) = true
    · rw [addBucket_cons_eq _ _ _ _ _ hk] at he
      rcases List.mem_cons.mp he with he | he
      · subst he
        rcases List.mem_append.mp hx with hx | hx
        · exact Or.inl ⟨(k0, ps), List.mem_cons_self _ _, hx⟩
        · exact Or.inr (List.mem_singleton.mp hx)
      · exact Or.inl ⟨e, List.mem_cons_of_mem _ he, hx⟩
    · rw [addBucket_cons_ne _ _ _ _ _ (Bool.not_eq_true _ ▸ hk)] at he
      rcases List.mem_cons.mp he with he | he
      · subst he
        exact Or.inl ⟨(k0, ps), List.mem_cons_self _ _, hx⟩
      · rcases ih he with ⟨e0, he0, hx0⟩ | hxp
        · exact Or.inl ⟨e0, List.mem_cons_of_mem _ he0, hx0⟩
        · exact Or.inr hxp

theorem foldl_buckets_key (l : List ParsedP) :
    ∀ bs : List (BKey × List ParsedP), (∀ e ∈ bs, ∀ x ∈ e.2, bucketKeyOf x = e.1) →
    ∀ e ∈ l.foldl (fun bs p => addBucket bs (bucketKeyOf p) p) bs, ∀ x ∈ e.2,
      bucketKeyOf x = e.1 := by
  induction l with
  | nil => intro bs hinv e he; exact hinv e he
  | cons p rest ih =>
    intro bs hinv e he
    exact ih (addBucket bs (bucketKeyOf p) p) (addBucket_key bs _ p hinv rfl) e he

theorem mkBuckets_key (l : List ParsedP) (e : BKey × List ParsedP) (he : e ∈ mkBuckets l)
    (x : ParsedP) (hx : x ∈ e.2) : bucketKeyOf x = e.1 :=
  foldl_buckets_key l [] (by intro e2 he2; cases he2) e he x hx

theorem foldl_buckets_mem (l : List ParsedP) :
    ∀ bs : List (BKey × List ParsedP), ∀ e ∈ l.foldl (fun bs p => addBucket bs (bucketKeyOf p) p) bs,
    ∀ x ∈ e.2, (∃ e0 ∈ bs, x ∈ e0.2) ∨ x ∈ l := by
  induction l with
  | nil =>
    intro bs e he x hx
    exact Or.inl ⟨e, he, hx⟩
  | cons p rest ih =>
    intro bs e he x hx
    rcases ih (addBucket bs (bucketKeyOf p) p) e he x hx with ⟨e0, he0, hx0⟩ | hmem
    · rcases addBucket_mem bs _ p e0 x he0 hx0 with ⟨e1, he1, hx1⟩ | hxp
      · exact Or.inl ⟨e1, he1, hx1⟩
      · exact Or.inr (hxp ▸ List.mem_cons_self _ _)
    · exact Or.inr (List.mem_cons_of_mem _ hmem)

theorem mkBuckets_mem (l : List ParsedP) (e : BKey × List ParsedP) (x : ParsedP)
    (he : e ∈ mkBuckets l) (hx : x ∈ e.2) : x ∈ l := by
  rcases foldl_buckets_mem l [] e he x hx with ⟨e0, he0, _⟩ | h
  · cases he0
  · exact h

theorem clusterLoop_subset :
    ∀ (fuel : Nat) (items : List ParsedP) (c : List ParsedP), c ∈ clusterLoop fuel items →
    ∀ x ∈ c, x ∈ items := by
  intro fuel
  induction fuel with
  | zero => intro items c hc; cases hc
  | succ f ih =>
    intro items c hc x hx
    cases items with
    | nil => cases hc
    | cons y rest =>
      rw [show clusterLoop (f + 1) (y :: rest) =
          (y :: (rest.partition (fun z =>
            decide (mkRat 4 5 ≤ jaccard_similarity y.original_name z.original_name))).1) ::
          clusterLoop f (rest.partition (fun z =>
            decide (mkRat 4 5 ≤ jaccard_similarity y.original_name z.original_name))).2
        from rfl] at hc
      rw [List.partition_eq_filter_filter] at hc
      rcases List.mem_cons.mp hc with hc | hc
      · subst hc
        rcases List.mem_cons.mp hx with hx | hx
        · exact hx ▸ List.mem_cons_self _ _
        · exact List.mem_cons_of_mem _ (List.mem_of_mem_filter hx)
      · exact List.mem_cons_of_mem _
          (List.mem_of_mem_filter (ih _ c hc x hx))

theorem clusterLoop_ne_nil :
    ∀ (fuel : Nat) (items : List ParsedP) (c : List ParsedP), c ∈ clusterLoop fuel items →
    c ≠ [] := by
  intro fuel
  induction fuel with
  | zero => intro items c hc; cases hc
  | succ f ih =>
    intro items c hc
    cases items with
    | nil => cases hc
    | cons y rest =>
      rcases List.mem_cons.mp hc with hc | hc
      · subst hc; exact List.cons_ne_nil _ _
      · exact ih _ c hc

/-- C6: every matched group is formatted from one cluster whose members all
come from the input listings and all share one bucket key, so two listings
with different (brand, quantity_value, quantity_unit) keys never inhabit
the same group. -/
theorem c6_groups_share_bucket_key (parsed : List ParsedP) (g : MatchedGroup)
    (hg : g ∈ group_parsed_products parsed) :
    ∃ c : List ParsedP, c ≠ [] ∧ g = formatCluster c ∧ (∀ p ∈ c, p ∈ parsed) ∧
      ∀ p ∈ c, ∀ r ∈ c, bucketKeyOf p = bucketKeyOf r := by
  unfold group_parsed_products at hg
  rw [List.mem_flatMap] at hg
  obtain ⟨b, hb, hgb⟩ := hg
  rw [List.mem_map] at hgb
  obtain ⟨c, hc, hfmt⟩ := hgb
  rw [show clustersOf b.2 = clusterLoop b.2.length b.2 from rfl] at hc
  refine ⟨c, clusterLoop_ne_nil _ _ _ hc, hfmt.symm, ?_, ?_⟩
  · intro p hp
    exact mkBuckets_mem parsed b p hb (clusterLoop_subset _ _ _ hc p hp)
  · intro p hp r hr
    rw [mkBuckets_key parsed b hb p (clusterLoop_subset _ _ _ hc p hp),
      mkBuckets_key parsed b hb r (clusterLoop_subset _ _ _ hc r hr)]

/-- Concrete parsed listing used to instantiate the grouping invariant. -/
def c6ExampleParsed : ParsedP :=
  { original_name := "Acme Beans 400g", brand := "Acme", product_name := "Beans 400g",
    quantity_value := some 400, quantity_unit := some "g", price := some "7",
    image_url := none, product_url := none, store := "noon" }

theorem c6_witness :
    ∃ c : List ParsedP, c ≠ [] ∧
      formatCluster [c6ExampleParsed] = formatCluster c ∧
      (∀ p ∈ c, p ∈ [c6ExampleParsed]) ∧
      ∀ p ∈ c, ∀ r ∈ c, bucketKeyOf p = bucketKeyOf r :=
  c6_groups_share_bucket_key [c6ExampleParsed] (formatCluster [c6ExampleParsed]) (by decide)

theorem parse_products_regex_store (ps : List RawP) (s : String) (p : ParsedP)
    (hp : p ∈ parse_products_regex ps s) : p.store = s := by
  unfold parse_products_regex at hp
  rw [List.mem_filterMap] at hp
  obtain ⟨raw, _, hsome⟩ := hp
  by_cases hn : (raw.name == "") = true
  · rw [if_pos hn] at hsome
    cases hsome
  · rw [if_neg hn] at hsome
    cases hsome
    rfl

theorem allParsedOf_store (sr : List (String × StoreData)) (p : ParsedP)
    (hp : p ∈ allParsedOf sr) : p.store ∈ storeNames := by
  unfold allParsedOf at hp
  rw [List.mem_flatten] at hp
  obtain ⟨l, hl, hpl⟩ := hp
  rw [List.mem_map] at hl
  obtain ⟨s, hs, hls⟩ := hl
  rw [← hls] at hpl
  rw [parse_products_regex_store _ _ _ hpl]
  exact hs

theorem updateAssoc_mem (sd : List (String × StoreEntry)) (store : String)
    (entry : StoreEntry) (e : String × StoreEntry) (he : e ∈ updateAssoc sd store entry) :
    e ∈ sd ∨ e.1 = store := by
  induction sd with
  | nil =>
    right
    rw [List.mem_singleton.mp he]
  | cons e0 rest ih =>
    unfold updateAssoc at he
    by_cases hk : (e0.1 == store) = true
    · rw [if_pos hk] at he
      rcases List.mem_cons.mp he with he | he
      · right; rw [he]
      · exact Or.inl (List.mem_cons_of_mem _ he)
    · rw [if_neg hk] at he
      rcases List.mem_cons.mp he with he | he
      · exact Or.inl (he ▸ List.mem_cons_self _ _)
      · rcases ih he with h | h
        · exact Or.inl (List.mem_cons_of_mem _ h)
        · exact Or.inr h

theorem storeStep_mem (acc : List (String × StoreEntry) × Option ℚ) (prod : ParsedP)
    (e : String × StoreEntry) (he : e ∈ (storeStep acc prod).1) :
    e ∈ acc.1 ∨ e.1 = prod.store := by
  unfold storeStep at he
  by_cases hs : (prod.store == "") = true
  · rw [if_pos hs] at he
    exact Or.inl he
  · rw [if_neg hs] at he
    dsimp only at he
    by_cases hc : storeUpdCond acc.1 prod.store (parsePriceOpt prod.price) = true
    · rw [if_pos hc] at he
      exact updateAssoc_mem _ _ _ _ he
    · rw [if_neg hc] at he
      exact Or.inl he

theorem storesFold_keys (Q : String → Prop) :
    ∀ (c : List ParsedP) (acc : List (String × StoreEntry) × Option ℚ),
    (∀ e ∈ acc.1, Q e.1) → (∀ p ∈ c, Q p.store) →
    ∀ e ∈ (c.foldl storeStep acc).1, Q e.1 := by
  intro c
  induction c with
  | nil => intro acc hacc _ e he; exact hacc e he
  | cons p rest ih =>
    intro acc hacc hc e he
    refine ih (storeStep acc p) ?_ (fun x hx => hc x (List.mem_cons_of_mem _ hx)) e he
    intro e2 he2
    rcases storeStep_mem acc p e2 he2 with h | h
    · exact hacc e2 h
    · exact h ▸ hc p (List.mem_cons_self _ _)

theorem formatCluster_stores (c : List ParsedP) :
    (formatCluster c).stores = (storesFold c).1 := by
  cases c with
  | nil => rfl
  | cons c0 rest => rfl

theorem assignMatch_stores (q : String) (item : MatchedGroup) :
    (assignMatch q item).stores = item.stores := by
  unfold assignMatch
  by_cases hq : (q == "") = true
  · rw [if_pos hq]
  · rw [if_neg hq]

theorem assignMatch_matched_name (q : String) (item : MatchedGroup) :
    (assignMatch q item).matched_name = item.matched_name := by
  unfold assignMatch
  by_cases hq : (q == "") = true
  · rw [if_pos hq]
  · rw [if_neg hq]

theorem match_products_mem (sr : List (String × StoreData)) (q : String) (g : MatchedGroup)
    (hg : g ∈ match_products sr q) :
    ∃ item, item ∈ group_parsed_products (allParsedOf sr) ∧ g = assignMatch q item := by
  unfold match_products at hg
  by_cases h1 : (allParsedOf sr).isEmpty = true
  · rw [if_pos h1] at hg
    cases hg
  · rw [if_neg h1] at hg
    by_cases h2 : (group_parsed_products (allParsedOf sr)).isEmpty = true
    · rw [if_pos h2] at hg
      rw [List.isEmpty_iff.mp h2] at hg
      cases hg
    · rw [if_neg h2] at hg
      rw [(List.perm_insertionSort _ _).mem_iff, List.mem_map] at hg
      obtain ⟨item, hitem, hassign⟩ := hg
      exact ⟨item, hitem, hassign.symm⟩

/-- C10: match_products reads only the store keys carrefour, noon, talabat
and amazon: two mappings agreeing on those four keys produce identical
output, and every store name in any output group's stores map is one of the
four. -/
theorem c10_store_keys :
    (∀ (sr1 sr2 : List (String × StoreData)) (q : String),
      (∀ k ∈ storeNames, getStoreProducts sr1 k = getStoreProducts sr2 k) →
      match_products sr1 q = match_products sr2 q) ∧
    (∀ (sr : List (String × StoreData)) (q : String), ∀ g ∈ match_products sr q,
      ∀ e ∈ g.stores, e.1 ∈ storeNames) := by
  constructor
  · intro sr1 sr2 q h
    have hall : allParsedOf sr1 = allParsedOf sr2 := by
      unfold allParsedOf
      have : storeNames.map (fun s =>
          parse_products_regex (filterValidProducts (getStoreProducts sr1 s)) s) =
          storeNames.map (fun s =>
          parse_products_regex (filterValidProducts (getStoreProducts sr2 s)) s) :=
        List.map_congr_left (fun s hs => by rw [h s hs])
      rw [this]
    unfold match_products
    rw [hall]
  · intro sr q g hg e he
    obtain ⟨item, hitem, hassign⟩ := match_products_mem sr q g hg
    rw [hassign, assignMatch_stores] at he
    obtain ⟨c, _, hfmt, hcin, _⟩ := c6_groups_share_bucket_key _ _ hitem
    rw [hfmt, formatCluster_stores] at he
    refine storesFold_keys (fun s => s ∈ storeNames) c ([], none)
      (by intro e2 he2; cases he2) ?_ e he
    intro p hp
    exact allParsedOf_store sr p (hcin p hp)

theorem c10_witness :
    match_products [("lulu", ⟨[⟨"Onion 1kg", some "3", none, none⟩]⟩)] "onion" =
      match_products [] "onion" :=
  c10_store_keys.1 _ _ "onion" (by decide)

theorem mkRat_one_four : mkRat 1 4 = (1 / 4 : ℚ) := by
  rw [Rat.mkRat_eq_div]
  norm_num

/-- C1, amended: a group is marked exact only if every query term occurs as
a case-insensitive substring of the matched name (not necessarily as a
whole word), the relevance score is positive, and either the score exceeds
0.25 or the query's category is Fresh Produce. -/
theorem c1_exact_requires_substrings_and_score (sr : List (String × StoreData))
    (q : String) (hq : q ≠ "") (g : MatchedGroup) (hg : g ∈ match_products sr q)
    (he : g.match_type = "exact") :
    (∀ t ∈ pySplitWs (lowerL q.data), substrOf t (lowerL g.matched_name.data) = true) ∧
    0 < calculate_relevance_score (String.mk (lowerL g.matched_name.data)) q ∧
    ((1 : ℚ) / 4 < calculate_relevance_score (String.mk (lowerL g.matched_name.data)) q ∨
      classifyL q.data = some "Fresh Produce") := by
  obtain ⟨item, _, hassign⟩ := match_products_mem sr q g hg
  have hqb : (q == "") = false := beq_eq_false_iff_ne.mpr hq
  rw [hassign] at he ⊢
  rw [assignMatch_matched_name]
  unfold assignMatch at he
  rw [hqb] at he
  simp only [Bool.false_eq_true, if_false] at he
  split at he
  next hcond =>
    rcases Bool.and_eq_true_iff.mp hcond with ⟨hc1, hc3⟩
    rcases Bool.and_eq_true_iff.mp hc1 with ⟨hlen, hpos⟩
    refine ⟨?_, of_decide_eq_true hpos, ?_⟩
    · exact List.filter_length_eq_length.mp (beq_iff_eq.mp hlen)
    · rcases Bool.or_eq_true_iff.mp hc3 with h | h
      · exact Or.inl (mkRat_one_four ▸ of_decide_eq_true h)
      · exact Or.inr (beq_iff_eq.mp h)
  next hcond => exact absurd he (by decide)

/-- Store mapping of the C1 example: one Carrefour listing whose name
contains the query term onion only as a substring of onions. -/
def c1ExampleStore : List (String × StoreData) :=
  [("carrefour", ⟨[⟨"Onions Fresh", some "10", none, none⟩]⟩)]

/-- The one group match_products produces for the C1 example. -/
def c1ExampleGroup : MatchedGroup :=
  { matched_name := "Onions Fresh", brand := "Onions", primary_image := none,
    quantity_value := none, quantity_unit := none, normalized_unit_price := none,
    stores := [("carrefour", { name := "Onions Fresh", price := some 10, product_url := none })],
    match_type := "exact", relevance_score := mkRat 1 5 }

/-- C1, counterexample to the claim as stated: on this input the single
output group is marked exact, the query's only term is onion, and onion
does not occur in the matched name Onions Fresh as a whole word under the
strict word-boundary test the source itself uses — so exact does not imply
whole-word occurrence of every query term. -/
theorem c1_counterexample_substring_exact :
    match_products c1ExampleStore "onion" = [c1ExampleGroup] ∧
    c1ExampleGroup.match_type = "exact" ∧
    pySplitWs (lowerL "onion".data) = ["onion".data] ∧
    reTest (wordRE "onion".data) (lowerL c1ExampleGroup.matched_name.data) = false := by
  refine ⟨by decide, by decide, by decide, by decide⟩

theorem c1_witness :
    (∀ t ∈ pySplitWs (lowerL "onion".data),
      substrOf t (lowerL c1ExampleGroup.matched_name.data) = true) ∧
    0 < calculate_relevance_score (String.mk (lowerL c1ExampleGroup.matched_name.data)) "onion" ∧
    ((1 : ℚ) / 4 <
        calculate_relevance_score (String.mk (lowerL c1ExampleGroup.matched_name.data)) "onion" ∨
      classifyL "onion".data = some "Fresh Produce") :=
  c1_exact_requires_substrings_and_score c1ExampleStore "onion" (by decide)
    c1ExampleGroup (by decide) (by decide)
